import Mathlib

/-!
Verification of the VibeMatch recommendation engine
(`preprocess.py`, `models.py`, `recommender.py`, `config.py`).

Shallow embedding conventions:
* Numeric feature values are rationals (exact arithmetic in place of float64).
* Distances are modelled as squared Euclidean distance, which is
  order-isomorphic to the Euclidean distance used by the source; every
  verified statement only depends on the ordering of distances.
* `StandardScaler` divides by `sqrt(variance)`, with zero variances mapped
  to 1 by sklearn (`_handle_zeros_in_scale`).  Since the square root of a
  rational is irrational in general, the development is parametric in the
  square-root operation `sqrtFn`; the statements that need anything about
  it assume only that it is nonzero on positive inputs, which holds for
  IEEE sqrt on the inputs that arise.
* Pandas dataframes are positional lists of rows; `reset_index(drop=True)`
  is the identity in this model.  Sorting (`sort_values`) is modelled as a
  stable sort, the deterministic tie policy mandated by the specification.
-/

namespace VibeMatch

/-! ### config.py -/

def FEATURE_COLUMNS : List String :=
  ["danceability", "energy", "loudness", "speechiness", "acousticness",
   "instrumentalness", "liveness", "valence", "tempo", "duration_ms",
   "popularity"]

def DEFAULT_N_CLUSTERS : Nat := 5

def DEFAULT_N_NEIGHBORS : Nat := 30

/-! ### preprocess.py -/

/-- A raw tabular dataset: named columns and positional rows, each row a
list of cells aligned with `columns`; `none` is a missing value (NaN). -/
structure RawTable where
  columns : List String
  rows : List (List (Option ℚ))
deriving DecidableEq

/-- Value of column `c` in a `row` of a table with columns `cols`
(`none` when the column is absent or the cell is missing). -/
def cellValue : List String → List (Option ℚ) → String → Option ℚ
  | [], _, _ => none
  | _ :: _, [], _ => none
  | c0 :: cs, x :: xs, c => if c0 = c then x else cellValue cs xs c

/-- `clean_and_select_features`: keep only rows with non-missing values in
the selected feature columns; raise (here: return `.error`) listing the
feature columns absent from the dataset.  The Python `missing` set is
modelled as the sublist of `feature_columns` absent from `df.columns`. -/
def clean_and_select_features (df : RawTable) (feature_columns : List String) :
    Except (List String) RawTable :=
  let existing := feature_columns.filter (fun c => df.columns.contains c)
  let missing := feature_columns.filter (fun c => !df.columns.contains c)
  if missing.isEmpty then
    .ok { columns := df.columns,
          rows := df.rows.filter (fun row =>
            existing.all (fun c => (cellValue df.columns row c).isSome)) }
  else
    .error missing

/-- `df[feature_columns].values`: the numeric feature matrix of a cleaned
table (cleaned rows have no missing feature cells; `getD 0` is never the
missing-value default on the paths the source exercises). -/
def RawTable.featureMatrix (df : RawTable) (feature_columns : List String) :
    List (List ℚ) :=
  df.rows.map (fun row =>
    feature_columns.map (fun c => (cellValue df.columns row c).getD 0))

/-- sklearn `StandardScaler` after fitting: per-column mean and scale. -/
structure StandardScaler where
  mean : List ℚ
  scale : List ℚ
deriving DecidableEq

/-- Mean of column `j` of a matrix (numpy mean along axis 0). -/
def colMean (X : List (List ℚ)) (j : Nat) : ℚ :=
  (X.map (fun r => r.getD j 0)).sum / X.length

/-- Population variance of column `j` (numpy var, ddof = 0, as used by
`StandardScaler.fit`). -/
def colVar (X : List (List ℚ)) (j : Nat) : ℚ :=
  (X.map (fun r => (r.getD j 0 - colMean X j) ^ 2)).sum / X.length

/-- `StandardScaler.fit` on a matrix with `d` columns: record the column
means, and as `scale_` the square root of each column variance, a zero
variance being replaced by 1 (`_handle_zeros_in_scale`). -/
def fitScaler (sqrtFn : ℚ → ℚ) (X : List (List ℚ)) (d : Nat) : StandardScaler :=
  { mean := (List.range d).map (fun j => colMean X j),
    scale := (List.range d).map (fun j =>
      if colVar X j = 0 then 1 else sqrtFn (colVar X j)) }

/-- `StandardScaler.transform` on one row: `(x - mean) / scale`
per coordinate. -/
def StandardScaler.transformVec (s : StandardScaler) (v : List ℚ) : List ℚ :=
  (List.range v.length).map (fun j => (v.getD j 0 - s.mean.getD j 0) / s.scale.getD j 1)

/-- `StandardScaler.transform` on a matrix: rowwise. -/
def StandardScaler.transformMatrix (s : StandardScaler) (X : List (List ℚ)) :
    List (List ℚ) :=
  X.map s.transformVec

/-- `scale_features(df, feature_columns, scaler)`: standardize the feature
matrix; fit a new scaler when none is given (`fit_transform` is `fit`
followed by `transform`), otherwise reuse the given one (transform only,
no refit). -/
def scale_features (sqrtFn : ℚ → ℚ) (df : RawTable) (feature_columns : List String)
    (scaler : Option StandardScaler) : List (List ℚ) × StandardScaler :=
  let X := df.featureMatrix feature_columns
  match scaler with
  | none =>
    let s := fitScaler sqrtFn X feature_columns.length
    (s.transformMatrix X, s)
  | some s => (s.transformMatrix X, s)

/-- `PreprocessResult` dataclass. -/
structure PreprocessResult where
  df : RawTable
  X_scaled : List (List ℚ)
  scaler : StandardScaler
  feature_columns : List String
deriving DecidableEq

/-- `preprocess_pipeline` (with the already-loaded raw table in place of the
CSV path: `load_dataset` is I/O).  `reset_index(drop=True)` is the identity
on this positional model of dataframes. -/
def preprocess_pipeline (sqrtFn : ℚ → ℚ) (raw : RawTable)
    (feature_columns : List String) : Except (List String) PreprocessResult :=
  match clean_and_select_features raw feature_columns with
  | .error m => .error m
  | .ok df_clean =>
    let p := scale_features sqrtFn df_clean feature_columns none
    .ok { df := df_clean, X_scaled := p.1, scaler := p.2,
          feature_columns := feature_columns }

/-! ### models.py and recommender.py data model -/

/-- One row of the cleaned catalog dataframe held by the recommender:
identity columns, the derived `mood_cluster` column, and the numeric
feature cells aligned with `feature_columns`. -/
structure Row where
  track_name : String
  artists : String
  track_genre : String
  mood_cluster : Int
  features : List ℚ
deriving DecidableEq

def defaultRow : Row :=
  { track_name := "", artists := "", track_genre := "", mood_cluster := 0,
    features := [] }

/-- `VibeModels` after `fit`: the nearest-neighbor index remembers its
`n_neighbors` (capped at the number of fitted rows); the k-means state is
not consulted by any verified statement (cluster labels are stored as a
dataframe column at construction). -/
structure VibeModels where
  knn_n : Nat
deriving DecidableEq

/-- Squared Euclidean distance; order-isomorphic stand-in for the
`euclidean` metric of the neighbor index. -/
def sqDist (a b : List ℚ) : ℚ :=
  ((a.zip b).map (fun p => (p.1 - p.2) ^ 2)).sum

/-- Comparison of (row, distance) candidates by distance, the sort key of
`sort_values("distance", ascending=True)`. -/
def distLE (a b : Row × ℚ) : Prop := a.2 ≤ b.2

instance : DecidableRel distLE := fun a b => inferInstanceAs (Decidable (a.2 ≤ b.2))

instance : IsTotal (Row × ℚ) distLE := ⟨fun a b => le_total a.2 b.2⟩

instance : IsTrans (Row × ℚ) distLE := ⟨fun _ _ _ h1 h2 => le_trans h1 h2⟩

/-- Comparison of (distance, row index) pairs produced by the neighbor
index, by distance. -/
def pairLE (a b : ℚ × Nat) : Prop := a.1 ≤ b.1

instance : DecidableRel pairLE := fun a b => inferInstanceAs (Decidable (a.1 ≤ b.1))

instance : IsTotal (ℚ × Nat) pairLE := ⟨fun a b => le_total a.1 b.1⟩

instance : IsTrans (ℚ × Nat) pairLE := ⟨fun _ _ _ h1 h2 => le_trans h1 h2⟩

/-- `NearestNeighbors.kneighbors`: the `k` fitted rows closest to the
query, as (distance, row index) pairs ascending by distance.  Candidates
are enumerated in row order and sorted stably, so ties in distance come
out in ascending row order — the deterministic tie policy of §8. -/
def kneighbors (X : List (List ℚ)) (q : List ℚ) (k : Nat) : List (ℚ × Nat) :=
  ((X.enum.map (fun p => (sqDist q p.2, p.1))).insertionSort pairLE).take k

/-- `VibeModels.query_neighbors`: request `n_neighbors` neighbors, capped
by the fitted index size. -/
def VibeModels.query_neighbors (m : VibeModels) (X : List (List ℚ))
    (q : List ℚ) (n_neighbors : Nat) : List (ℚ × Nat) :=
  kneighbors X q (min n_neighbors m.knn_n)

/-- `VibeRecommender` dataclass: catalog dataframe, standardized matrix,
feature column names, fitted models, fitted scaler. -/
structure VibeRecommender where
  df : List Row
  X_scaled : List (List ℚ)
  feature_columns : List String
  models : VibeModels
  scaler : StandardScaler
deriving DecidableEq

/-- Construction invariant established by `from_csv`: the standardized
matrix is row-aligned with the dataframe, the neighbor index was fitted
with the default `n_neighbors = DEFAULT_N_NEIGHBORS` capped at the row
count, and every row's feature cells align with `feature_columns`. -/
def VibeRecommender.WF (e : VibeRecommender) : Prop :=
  e.X_scaled.length = e.df.length
  ∧ e.models.knn_n = min DEFAULT_N_NEIGHBORS e.df.length
  ∧ ∀ r ∈ e.df, r.features.length = e.feature_columns.length

instance (e : VibeRecommender) : Decidable e.WF :=
  inferInstanceAs (Decidable (_ ∧ _ ∧ _))

/-! ### recommender.py internal helpers -/

/-- `str.lower()`: characterwise lowercase (data-level model of
`String.toLower`). -/
def strLower (s : String) : String := ⟨s.data.map Char.toLower⟩

/-- `_get_track_indices_by_name`: indices of rows whose track name matches
case-insensitively. -/
def getTrackIndicesByName (e : VibeRecommender) (track_name : String) : List Nat :=
  (e.df.enum.filter (fun p => strLower p.2.track_name == strLower track_name)).map
    (fun p => p.1)

/-- Mean of the dataframe column holding feature `j`
(`df[feature_columns].mean()` at position `j`). -/
def dfColMean (e : VibeRecommender) (j : Nat) : ℚ :=
  (e.df.map (fun r => r.features.getD j 0)).sum / e.df.length

/-- Python dict built by inserting the pairs of `l` in order, looked up at
`k`: the last binding wins, as with `dict.update`. -/
def dictLookup (l : List (String × ℚ)) (k : String) : Option ℚ :=
  l.reverse.lookup k

/-- `_build_mood_vector`: dataset means overwritten by the caller's
overrides, then passed through the fitted scaler (transform only). -/
def build_mood_vector (e : VibeRecommender) (overrides : List (String × ℚ)) :
    List ℚ :=
  let raw := e.feature_columns.enum.map (fun p =>
    (dictLookup overrides p.2).getD (dfColMean e p.1))
  e.scaler.transformVec raw

/-- `_recommend_from_vector`: query the neighbor index, drop the excluded
row index, stop after `n` candidates, and attach the catalog rows.  The
loop with its `break` is the `take n` of the filtered pair list.  Row
indices returned by the index are in range for constructed engines, so
`getD defaultRow` never takes its default on the paths the source
exercises. -/
def recommendFromVector (e : VibeRecommender) (query_vec : List ℚ) (n : Nat)
    (exclude_index : Option Nat) : List (Row × ℚ) :=
  (((e.models.query_neighbors e.X_scaled query_vec n).filter
      (fun p => decide (exclude_index ≠ some p.2))).take n).map
    (fun p => (e.df.getD p.2 defaultRow, p.1))

/-- The (track_name, artists) identity key of a catalog row. -/
def rowKey (r : Row) : String × String := (r.track_name, r.artists)

/-- Identity key of a recommendation candidate. -/
def recKey (p : Row × ℚ) : String × String := rowKey p.1

/-- `drop_duplicates(subset=[track_name, artists], keep="first")`:
keep the first occurrence of each identity key; `seen` accumulates the
keys already kept. -/
def dropDupByKey : List (Row × ℚ) → List (String × String) → List (Row × ℚ)
  | [], _ => []
  | r :: rs, seen =>
    if recKey r ∈ seen then dropDupByKey rs seen
    else r :: dropDupByKey rs (recKey r :: seen)

/-- `_dedupe_recommendations`: drop exact seed matches, sort ascending by
distance, de-duplicate by identity key keeping the closest occurrence,
truncate to `n`.  The column-presence guard of the source always holds in
this model (every row has both identity columns). -/
def dedupe_recommendations (recs : List (Row × ℚ)) (n : Nat)
    (seed_key : Option (String × String)) : List (Row × ℚ) :=
  let work := match seed_key with
    | none => recs
    | some sk => recs.filter (fun r => decide (recKey r ≠ sk))
  (dropDupByKey (work.insertionSort distLE) []).take n

/-- `pat` occurs as a contiguous run inside the character list. -/
def isInfixOfChars (pat : List Char) : List Char → Bool
  | [] => pat.isEmpty
  | c :: t => pat.isPrefixOf (c :: t) || isInfixOfChars pat t

/-- Case-insensitive substring containment:
`Series.str.contains(pat, case=False, na=False)` on one cell. -/
def containsCI (s pat : String) : Bool :=
  isInfixOfChars (strLower pat).toList (strLower s).toList

/-! ### recommender.py public API (state-passing form)

Each query returns its result together with the engine state after the
call; every write in the source lands on a `.copy()` of shared data, so
the state component is passed through unchanged. -/

/-- `recommend_by_track`.  `artist_hint` is an optional string; Python
truthiness makes an empty hint behave as no hint. -/
def recommend_by_track (e : VibeRecommender) (track_name : String) (n : Nat)
    (artist_hint : Option String) :
    (Option Row × List (Row × ℚ)) × VibeRecommender :=
  match getTrackIndicesByName e track_name with
  | [] => ((none, []), e)
  | i0 :: rest =>
    let indices := i0 :: rest
    let seed_idx :=
      match artist_hint with
      | some hint =>
        if hint = "" then i0
        else
          match indices.filter (fun i => containsCI (e.df.getD i defaultRow).artists hint) with
          | [] => i0
          | j :: _ => j
      | none => i0
    let seed_row := e.df.getD seed_idx defaultRow
    let seed_vec := e.X_scaled.getD seed_idx []
    let pool_size := max DEFAULT_N_NEIGHBORS (n + 5)
    let pool_recs := recommendFromVector e seed_vec pool_size (some seed_idx)
    let seed_key := (seed_row.track_name, seed_row.artists)
    ((some seed_row, dedupe_recommendations pool_recs n (some seed_key)), e)

/-- The overrides dict of `recommend_by_mood`: the three sliders, updated
with the extras when they are given (later bindings win on collision). -/
def mergedOverrides (energy valence danceability : ℚ)
    (extra_overrides : Option (List (String × ℚ))) : List (String × ℚ) :=
  [("energy", energy), ("valence", valence), ("danceability", danceability)]
    ++ extra_overrides.getD []

/-- `recommend_by_mood`. -/
def recommend_by_mood (e : VibeRecommender) (energy valence danceability : ℚ)
    (n : Nat) (extra_overrides : Option (List (String × ℚ))) :
    List (Row × ℚ) × VibeRecommender :=
  let overrides := mergedOverrides energy valence danceability extra_overrides
  let mood_vec := build_mood_vector e overrides
  let pool_size := max DEFAULT_N_NEIGHBORS (n + 5)
  let pool_recs := recommendFromVector e mood_vec pool_size none
  (dedupe_recommendations pool_recs n none, e)

/-- `describe_clusters`: per distinct cluster id (pandas `groupby` sorts
its keys ascending), the mean of each feature column over that cluster's
rows. -/
def describe_clusters (e : VibeRecommender) :
    List (Int × List ℚ) × VibeRecommender :=
  let ids := (e.df.map (fun r => r.mood_cluster)).dedup.insertionSort (· ≤ ·)
  (ids.map (fun c =>
    let sub := e.df.filter (fun r => decide (r.mood_cluster = c))
    (c, (List.range e.feature_columns.length).map (fun j =>
      (sub.map (fun r => r.features.getD j 0)).sum / sub.length))), e)

/-- `sample_cluster_tracks`: a fixed-seed pseudorandom sample of
`min n (cluster size)` rows of the cluster.  The seeded permutation drawn
by `DataFrame.sample(random_state=0)` is internal to numpy; it is
modelled as taking the first `min n (cluster size)` rows — every verified
statement depends only on which shared state the call reads, not on which
rows the seeded permutation selects. -/
def sample_cluster_tracks (e : VibeRecommender) (cluster_label : Int) (n : Nat) :
    List Row × VibeRecommender :=
  let subset := e.df.filter (fun r => decide (r.mood_cluster = cluster_label))
  (subset.take (min n subset.length), e)

/-- Specification-side description of the raw mood query vector (§4.3
steps 1-2), to be compared with the one the code builds: every feature
named by the caller — an `extra_overrides` binding (latest wins) or one of
the three sliders — takes the caller's value; every feature not named
keeps its dataset mean. -/
def moodRawSpec (e : VibeRecommender) (energy valence danceability : ℚ)
    (extra_overrides : Option (List (String × ℚ))) : List ℚ :=
  e.feature_columns.enum.map (fun p =>
    match (extra_overrides.getD []).reverse.lookup p.2 with
    | some v => v
    | none =>
      if p.2 = "energy" then energy
      else if p.2 = "valence" then valence
      else if p.2 = "danceability" then danceability
      else dfColMean e p.1)

/-! ### Concrete instances used by witnesses and counterexamples -/

/-- A small raw dataset: one feature column, two complete rows. -/
def rawW : RawTable := { columns := ["a"], rows := [[some 0], [some 2]] }

/-- A raw dataset whose single feature column is constant (variance 0). -/
def rawConst : RawTable := { columns := ["a"], rows := [[some 5], [some 5]] }

/-- The preprocessing result of `rawW` (mean 1, variance 1). -/
def prepW : PreprocessResult :=
  { df := { columns := ["a"], rows := [[some 0], [some 2]] },
    X_scaled := [[-1], [1]],
    scaler := { mean := [1], scale := [1] },
    feature_columns := ["a"] }

/-- Catalog rows of the small witness engine (two of them the same track
under the same artist). -/
def rowA0 : Row :=
  { track_name := "Alpha", artists := "X", track_genre := "g",
    mood_cluster := 0, features := [0] }

def rowB1 : Row :=
  { track_name := "Beta", artists := "Y", track_genre := "g",
    mood_cluster := 1, features := [1] }

def rowA2 : Row :=
  { track_name := "Alpha", artists := "X", track_genre := "g",
    mood_cluster := 0, features := [2] }

def rowG3 : Row :=
  { track_name := "Gamma", artists := "Z", track_genre := "g",
    mood_cluster := 1, features := [3] }

/-- A small constructed engine over four catalog rows, standardized with
mean 0 / scale 1. -/
def engW : VibeRecommender :=
  { df := [rowA0, rowB1, rowA2, rowG3],
    X_scaled := [[0], [1], [2], [3]],
    feature_columns := ["energy"],
    models := { knn_n := min DEFAULT_N_NEIGHBORS 4 },
    scaler := { mean := [0], scale := [1] } }

/-- Pairwise-distinct track names of unbounded length. -/
def bigName (i : Nat) : String := String.mk ('T' :: List.replicate i 'a')

/-- An engine over 31 distinct tracks, as built by `from_csv` with the
default `n_neighbors = 30` (raw feature value `i` for track `i`; the
fitted scaler has mean 15, and scale 1 — obtained from the abstract
square root mapping the variance 2480/31 to 1). -/
def engBig : VibeRecommender :=
  { df := (List.range 31).map (fun i =>
      { track_name := bigName i, artists := "A", track_genre := "g",
        mood_cluster := 0, features := [(i : ℚ)] }),
    X_scaled := (List.range 31).map (fun i => [(i : ℚ) - 15]),
    feature_columns := ["energy"],
    models := { knn_n := min DEFAULT_N_NEIGHBORS 31 },
    scaler := { mean := [15], scale := [1] } }

/-! ### C8: schema validation and row filtering of clean_and_select -/

/-- C8: `clean_and_select_features` fails with an error listing exactly
the entries of `feature_columns` absent from the raw schema whenever any
is absent; otherwise it returns the table of exactly the rows in which
every named feature is non-missing (a pure transform: the result is built
from `df` without modifying it). -/
theorem clean_and_select_features_spec (df : RawTable) (cols : List String) :
    (clean_and_select_features df cols =
      if ∀ c ∈ cols, c ∈ df.columns then
        .ok { columns := df.columns,
              rows := df.rows.filter (fun row =>
                cols.all (fun c => (cellValue df.columns row c).isSome)) }
      else .error (cols.filter (fun c => !df.columns.contains c)))
    ∧ (∀ m, clean_and_select_features df cols = .error m →
        ∀ c, c ∈ m ↔ c ∈ cols ∧ c ∉ df.columns) := by
  by_cases h : ∀ c ∈ cols, c ∈ df.columns
  · have hmiss : cols.filter (fun c => !df.columns.contains c) = [] := by
      rw [List.filter_eq_nil_iff]
      intro c hc
      simp [h c hc]
    have hex : cols.filter (fun c => df.columns.contains c) = cols := by
      rw [List.filter_eq_self]
      intro c hc
      simp [h c hc]
    have hres : clean_and_select_features df cols =
        .ok { columns := df.columns,
              rows := df.rows.filter (fun row =>
                cols.all (fun c => (cellValue df.columns row c).isSome)) } := by
      unfold clean_and_select_features
      rw [hmiss, hex]
      rfl
    refine ⟨by rw [hres, if_pos h], ?_⟩
    intro m hm
    rw [hres] at hm
    exact absurd hm (by simp)
  · push_neg at h
    obtain ⟨c0, hc0, hnc0⟩ := h
    have hcmem : c0 ∈ cols.filter (fun c => !df.columns.contains c) := by
      rw [List.mem_filter]
      exact ⟨hc0, by simp [hnc0]⟩
    have hne : (cols.filter (fun c => !df.columns.contains c)).isEmpty = false := by
      cases hb : (cols.filter (fun c => !df.columns.contains c)).isEmpty
      · rfl
      · rw [List.isEmpty_iff] at hb
        rw [hb] at hcmem
        cases hcmem
    have hres : clean_and_select_features df cols =
        .error (cols.filter (fun c => !df.columns.contains c)) := by
      unfold clean_and_select_features
      simp only [hne, Bool.false_eq_true, if_false]
    refine ⟨?_, ?_⟩
    · rw [hres, if_neg (fun hall => hnc0 (hall c0 hc0))]
    · intro m hm c
      rw [hres] at hm
      injection hm with hm
      subst hm
      simp [List.mem_filter]

/-- C8 witness: on a table missing two of three requested columns, the
theorem yields the characterization of the reported column list. -/
theorem clean_and_select_features_spec_witness :
    "zz" ∈ ["zz", "b"] ↔ "zz" ∈ ["a", "zz", "b"] ∧ "zz" ∉ rawW.columns :=
  (clean_and_select_features_spec rawW ["a", "zz", "b"]).2 ["zz", "b"] (by rfl) "zz"

/-! ### C2: transform-only reuse of the fitted scaler -/

/-- C2: for every catalog produced by the preprocessing pipeline,
re-running `scale_features` on the cleaned table with the fitted scaler
passed in (transform only, no refit) reproduces the stored standardized
matrix exactly (hence every row of it). -/
theorem scaler_consistency (sqrtFn : ℚ → ℚ) (raw : RawTable)
    (cols : List String) (prep : PreprocessResult)
    (h : preprocess_pipeline sqrtFn raw cols = .ok prep) :
    (scale_features sqrtFn prep.df prep.feature_columns (some prep.scaler)).1
      = prep.X_scaled := by
  unfold preprocess_pipeline at h
  cases hc : clean_and_select_features raw cols with
  | error m => rw [hc] at h; exact absurd h (by simp)
  | ok dfc =>
    rw [hc] at h
    simp only [Except.ok.injEq] at h
    subst h
    rfl

/-- C2 witness: the pipeline on `rawW` (with the abstract square root
instantiated by the identity, exact on the variance 1 arising here). -/
theorem scaler_consistency_witness :
    (scale_features id prepW.df prepW.feature_columns (some prepW.scaler)).1
      = prepW.X_scaled :=
  scaler_consistency id rawW ["a"] prepW (by
    norm_num +decide [preprocess_pipeline, clean_and_select_features,
      scale_features, RawTable.featureMatrix, cellValue, fitScaler, colMean,
      colVar, StandardScaler.transformMatrix, StandardScaler.transformVec,
      rawW, prepW, List.range_succ])

/-! ### C9: queries leave the engine state unchanged -/

/-- C9: every query operation — `recommend_by_track`, `recommend_by_mood`,
`describe_clusters`, `sample_cluster_tracks` — returns the engine state it
was given: the catalog dataframe (with its `mood_cluster` column), the
standardized matrix, the feature column list, the fitted models and the
fitted scaler are all unchanged. -/
theorem queries_preserve_state (e : VibeRecommender) (tn : String)
    (n m : Nat) (ah : Option String) (en va da : ℚ)
    (ex : Option (List (String × ℚ))) (c : Int) :
    (recommend_by_track e tn n ah).2 = e
    ∧ (recommend_by_mood e en va da n ex).2 = e
    ∧ (describe_clusters e).2 = e
    ∧ (sample_cluster_tracks e c m).2 = e := by
  refine ⟨?_, rfl, rfl, rfl⟩
  unfold recommend_by_track
  cases getTrackIndicesByName e tn <;> rfl

/-! ### C7: unmatched track name gives the not-found result -/

/-- C7: when no catalog row's track name matches the requested name
case-insensitively, `recommend_by_track` returns the not-found seed
(`none`) with an empty result sequence (it is a total function: no
exception path exists). -/
theorem recommend_by_track_not_found (e : VibeRecommender) (tn : String)
    (n : Nat) (ah : Option String)
    (h : ∀ r ∈ e.df, strLower r.track_name ≠ strLower tn) :
    (recommend_by_track e tn n ah).1 = (none, []) := by
  have hidx : getTrackIndicesByName e tn = [] := by
    unfold getTrackIndicesByName
    rw [List.map_eq_nil_iff, List.filter_eq_nil_iff]
    intro p hp
    simp [h p.2 (List.snd_mem_of_mem_enum hp)]
  simp [recommend_by_track, hidx]

/-! ### Dedup infrastructure shared by the seed-exclusion, idempotence
and length statements -/

theorem dropDupByKey_sublist (l : List (Row × ℚ)) :
    ∀ seen, (dropDupByKey l seen).Sublist l := by
  induction l with
  | nil => intro seen; simp [dropDupByKey]
  | cons r rs ih =>
    intro seen
    unfold dropDupByKey
    by_cases h : recKey r ∈ seen
    · rw [if_pos h]
      exact (ih seen).cons r
    · rw [if_neg h]
      exact (ih _).cons₂ r

/-- Every entry surviving `_dedupe_recommendations` with a seed key came
through the seed filter, so its identity key differs from the seed's. -/
theorem mem_dedupe_key_ne_seed (recs : List (Row × ℚ)) (n : Nat)
    (k : String × String) :
    ∀ p ∈ dedupe_recommendations recs n (some k), recKey p ≠ k := by
  intro p hp
  unfold dedupe_recommendations at hp
  have h1 := List.mem_of_mem_take hp
  have h2 := (dropDupByKey_sublist _ []).subset h1
  have h3 := (List.perm_insertionSort distLE _).subset h2
  have h4 := List.of_mem_filter h3
  simpa using h4

/-! ### C3: the seed never appears in recommend_by_track results -/

/-- C3: whenever `recommend_by_track` resolves a seed row, no entry of the
returned result sequence carries the same (track_name, artists) pair as
that seed. -/
theorem seed_exclusion (e : VibeRecommender) (tn : String) (n : Nat)
    (ah : Option String) (seed : Row) (res : List (Row × ℚ))
    (h : (recommend_by_track e tn n ah).1 = (some seed, res)) :
    ∀ p ∈ res, ¬(p.1.track_name = seed.track_name ∧ p.1.artists = seed.artists) := by
  rcases hg : getTrackIndicesByName e tn with _ | ⟨i0, rest⟩
  · simp [recommend_by_track, hg] at h
  · simp only [recommend_by_track, hg, Prod.mk.injEq, Option.some.injEq] at h
    obtain ⟨hseed, hres⟩ := h
    subst hseed
    subst hres
    intro p hp hkey
    have hne := mem_dedupe_key_ne_seed _ n _ p hp
    exact hne (by simp [recKey, rowKey, hkey.1, hkey.2])

/-- C3 witness: querying the four-row engine for "alpha" resolves the
first Alpha row as seed; the first returned recommendation differs from
it in identity key. -/
theorem seed_exclusion_witness :
    ¬ (((rowB1, (1 : ℚ)).1.track_name = rowA0.track_name)
        ∧ ((rowB1, (1 : ℚ)).1.artists = rowA0.artists)) := by
  refine seed_exclusion engW "alpha" 2 none rowA0 [(rowB1, 1), (rowG3, 9)]
    ?_ _ (by simp)
  have h1 : getTrackIndicesByName engW "alpha" = [0, 2] := by decide
  have hdf : engW.df = [rowA0, rowB1, rowA2, rowG3] := rfl
  have hX : engW.X_scaled = [[0], [1], [2], [3]] := rfl
  have hk : engW.models.knn_n = 4 := rfl
  norm_num +decide [recommend_by_track, h1, hdf, hX, hk, recommendFromVector,
    VibeModels.query_neighbors, kneighbors, sqDist, dedupe_recommendations,
    dropDupByKey, recKey, rowKey, List.insertionSort, List.orderedInsert,
    List.enum, List.enumFrom, pairLE, distLE, defaultRow,
    DEFAULT_N_NEIGHBORS, List.getD, rowA0, rowB1, rowA2, rowG3]

/-! ### More dedup infrastructure: sortedness, nodup keys, lengths -/

theorem dropDupByKey_keys_nodup (l : List (Row × ℚ)) :
    ∀ seen, ((dropDupByKey l seen).map recKey).Nodup
      ∧ ∀ k ∈ (dropDupByKey l seen).map recKey, k ∉ seen := by
  induction l with
  | nil => intro seen; simp [dropDupByKey]
  | cons r rs ih =>
    intro seen
    unfold dropDupByKey
    by_cases h : recKey r ∈ seen
    · rw [if_pos h]
      exact ih seen
    · rw [if_neg h]
      obtain ⟨ihn, ihs⟩ := ih (recKey r :: seen)
      refine ⟨?_, ?_⟩
      · rw [List.map_cons, List.nodup_cons]
        exact ⟨fun hmem => (ihs _ hmem) (List.mem_cons_self _ _), ihn⟩
      · intro k hk
        rw [List.map_cons, List.mem_cons] at hk
        rcases hk with hk | hk
        · subst hk; exact h
        · exact fun hks => (ihs k hk) (List.mem_cons_of_mem _ hks)

theorem dropDupByKey_eq_self (l : List (Row × ℚ)) :
    ∀ seen, (l.map recKey).Nodup → (∀ p ∈ l, recKey p ∉ seen) →
      dropDupByKey l seen = l := by
  induction l with
  | nil => intro seen _ _; rfl
  | cons r rs ih =>
    intro seen hnd hs
    rw [List.map_cons, List.nodup_cons] at hnd
    unfold dropDupByKey
    rw [if_neg (hs r (List.mem_cons_self _ _))]
    congr 1
    refine ih _ hnd.2 ?_
    intro p hp
    rw [List.mem_cons]
    rintro (hk | hk)
    · exact hnd.1 (hk ▸ List.mem_map_of_mem recKey hp)
    · exact hs p (List.mem_cons_of_mem _ hp) hk

theorem dedupe_sorted (recs : List (Row × ℚ)) (n : Nat)
    (sk : Option (String × String)) :
    (dedupe_recommendations recs n sk).Sorted distLE := by
  unfold dedupe_recommendations
  exact ((List.sorted_insertionSort distLE _).sublist
    (dropDupByKey_sublist _ _)).sublist (List.take_sublist _ _)

theorem dedupe_keys_nodup (recs : List (Row × ℚ)) (n : Nat)
    (sk : Option (String × String)) :
    ((dedupe_recommendations recs n sk).map recKey).Nodup := by
  unfold dedupe_recommendations
  rw [List.map_take]
  exact List.Nodup.sublist (List.take_sublist _ _)
    (dropDupByKey_keys_nodup _ []).1

theorem dedupe_length_le (recs : List (Row × ℚ)) (n : Nat)
    (sk : Option (String × String)) :
    (dedupe_recommendations recs n sk).length ≤ n := by
  unfold dedupe_recommendations
  rw [List.length_take]
  exact min_le_left _ _

theorem dedupe_length_le_input (recs : List (Row × ℚ)) (n : Nat)
    (sk : Option (String × String)) :
    (dedupe_recommendations recs n sk).length ≤ recs.length := by
  unfold dedupe_recommendations
  refine le_trans (le_trans (List.take_sublist _ _).length_le
    (le_trans (dropDupByKey_sublist _ _).length_le
      (le_of_eq (List.perm_insertionSort distLE _).length_eq))) ?_
  cases sk with
  | none => exact le_refl _
  | some k => exact List.length_filter_le _ _

/-- A sequence that is already seed-free, sorted, key-distinct, and within
the length bound passes through `_dedupe_recommendations` unchanged. -/
theorem dedupe_eq_self (l : List (Row × ℚ)) (n : Nat)
    (sk : Option (String × String)) (hsort : l.Sorted distLE)
    (hnd : (l.map recKey).Nodup) (hlen : l.length ≤ n)
    (hseed : ∀ k, sk = some k → ∀ p ∈ l, recKey p ≠ k) :
    dedupe_recommendations l n sk = l := by
  unfold dedupe_recommendations
  cases sk with
  | none =>
    show List.take n (dropDupByKey (List.insertionSort distLE l) []) = l
    rw [hsort.insertionSort_eq,
      dropDupByKey_eq_self l [] hnd (by intro p _; simp),
      List.take_of_length_le hlen]
  | some k =>
    have hfl : l.filter (fun r => decide (recKey r ≠ k)) = l := by
      rw [List.filter_eq_self]
      intro p hp
      simpa using hseed k rfl p hp
    show List.take n (dropDupByKey (List.insertionSort distLE
      (l.filter (fun r => decide (recKey r ≠ k)))) []) = l
    rw [hfl, hsort.insertionSort_eq,
      dropDupByKey_eq_self l [] hnd (by intro p _; simp),
      List.take_of_length_le hlen]

/-! ### C6: idempotence of the dedup-and-truncate pass -/

/-- C6: `_dedupe_recommendations` is idempotent on its own output: a
second application with the same `n` and the same seed key returns the
already-deduplicated, already-truncated sequence unchanged, same rows in
the same order. -/
theorem dedupe_idempotent (recs : List (Row × ℚ)) (n : Nat)
    (sk : Option (String × String)) :
    dedupe_recommendations (dedupe_recommendations recs n sk) n sk
      = dedupe_recommendations recs n sk := by
  refine dedupe_eq_self _ n sk (dedupe_sorted recs n sk)
    (dedupe_keys_nodup recs n sk) (dedupe_length_le recs n sk) ?_
  rintro k rfl p hp
  exact mem_dedupe_key_ne_seed recs n k p hp

/-! ### C5: zero-variance feature columns -/

theorem getD_range_map (d j : Nat) (f : Nat → ℚ) (dflt : ℚ) (hj : j < d) :
    ((List.range d).map f).getD j dflt = f j := by
  rw [List.getD_eq_getElem?_getD, List.getElem?_map, List.getElem?_range hj]
  rfl

theorem sum_eq_zero_forall (l : List ℚ) (h : ∀ a ∈ l, 0 ≤ a)
    (hs : l.sum = 0) : ∀ a ∈ l, a = 0 := by
  induction l with
  | nil => intro a ha; cases ha
  | cons b t ih =>
    rw [List.sum_cons] at hs
    have hb : 0 ≤ b := h b (List.mem_cons_self _ _)
    have ht : 0 ≤ t.sum :=
      List.sum_nonneg (fun x hx => h x (List.mem_cons_of_mem _ hx))
    intro a ha
    rcases List.mem_cons.mp ha with rfl | ha
    · linarith
    · exact ih (fun x hx => h x (List.mem_cons_of_mem _ hx)) (by linarith) a ha

theorem colVar_nonneg (X : List (List ℚ)) (j : Nat) : 0 ≤ colVar X j := by
  unfold colVar
  refine div_nonneg (List.sum_nonneg ?_) (Nat.cast_nonneg _)
  intro x hx
  obtain ⟨r, _, rfl⟩ := List.mem_map.mp hx
  exact sq_nonneg _

/-- A zero-variance column is constant at its mean. -/
theorem colVar_zero_entries (X : List (List ℚ)) (j : Nat)
    (hv : colVar X j = 0) : ∀ r ∈ X, r.getD j 0 = colMean X j := by
  unfold colVar at hv
  rcases div_eq_zero_iff.mp hv with hsum | hlen
  · intro r hr
    have h0 := sum_eq_zero_forall _
      (fun a ha => by
        obtain ⟨r', _, rfl⟩ := List.mem_map.mp ha
        exact sq_nonneg _)
      hsum ((r.getD j 0 - colMean X j) ^ 2) (List.mem_map_of_mem _ hr)
    have := pow_eq_zero_iff (n := 2) (by norm_num) |>.mp h0
    linarith [sub_eq_zero.mp this]
  · have hlen0 : X.length = 0 := by exact_mod_cast hlen
    rw [List.length_eq_zero] at hlen0
    subst hlen0
    intro r hr
    cases hr

/-- C5: when a feature column has zero variance at fit time, `scale`
avoids division by zero: the fitted scale for that column is 1 (sklearn's
`_handle_zeros_in_scale`), the standardized matrix is constantly zero in
that column, and no column of the fitted scale is zero (ℚ has no NaN/Inf;
the divisor being nonzero is the embedded form of "no NaN or infinity is
produced"). -/
theorem zero_variance_policy (sqrtFn : ℚ → ℚ) (df : RawTable)
    (cols : List String) (j : Nat)
    (hsq : ∀ q : ℚ, 0 < q → sqrtFn q ≠ 0) (hj : j < cols.length)
    (hv : colVar (df.featureMatrix cols) j = 0) :
    (scale_features sqrtFn df cols none).2.scale.getD j 1 = 1
    ∧ (∀ v ∈ (scale_features sqrtFn df cols none).1, v.getD j 0 = 0)
    ∧ (∀ i, i < cols.length →
        (scale_features sqrtFn df cols none).2.scale.getD i 1 ≠ 0) := by
  have hsc : (scale_features sqrtFn df cols none).2.scale
      = (List.range cols.length).map (fun i =>
          if colVar (df.featureMatrix cols) i = 0 then 1
          else sqrtFn (colVar (df.featureMatrix cols) i)) := rfl
  have hmean : (scale_features sqrtFn df cols none).2.mean
      = (List.range cols.length).map
          (fun i => colMean (df.featureMatrix cols) i) := rfl
  have hmat : (scale_features sqrtFn df cols none).1
      = (fitScaler sqrtFn (df.featureMatrix cols)
          cols.length).transformMatrix (df.featureMatrix cols) := rfl
  refine ⟨?_, ?_, ?_⟩
  · rw [hsc, getD_range_map _ _ _ _ hj, if_pos hv]
  · intro v hvm
    rw [hmat] at hvm
    obtain ⟨r, hr, rfl⟩ := List.mem_map.mp hvm
    have hrlen : r.length = cols.length := by
      obtain ⟨row, _, rfl⟩ := List.mem_map.mp hr
      exact List.length_map _ _
    unfold StandardScaler.transformVec
    rw [getD_range_map _ _ _ _ (hrlen ▸ hj)]
    have hscj : (fitScaler sqrtFn (df.featureMatrix cols)
        cols.length).scale.getD j 1 = 1 := by
      have : (fitScaler sqrtFn (df.featureMatrix cols) cols.length).scale
          = (scale_features sqrtFn df cols none).2.scale := rfl
      rw [this, hsc, getD_range_map _ _ _ _ hj, if_pos hv]
    have hmeanj : (fitScaler sqrtFn (df.featureMatrix cols)
        cols.length).mean.getD j 0 = colMean (df.featureMatrix cols) j := by
      have : (fitScaler sqrtFn (df.featureMatrix cols) cols.length).mean
          = (scale_features sqrtFn df cols none).2.mean := rfl
      rw [this, hmean, getD_range_map _ _ _ _ hj]
    rw [hscj, hmeanj, colVar_zero_entries _ _ hv r hr]
    ring
  · intro i hi
    rw [hsc, getD_range_map _ _ _ _ hi]
    by_cases h0 : colVar (df.featureMatrix cols) i = 0
    · rw [if_pos h0]
      norm_num
    · rw [if_neg h0]
      exact hsq _ (lt_of_le_of_ne (colVar_nonneg _ _) (Ne.symm h0))

/-- C5 witness: a two-row table whose single feature column is constant. -/
theorem zero_variance_policy_witness :
    ((scale_features id rawConst ["a"] none).2.scale.getD 0 1 = 1)
    ∧ (∀ v ∈ (scale_features id rawConst ["a"] none).1, v.getD 0 0 = 0)
    ∧ (∀ i, i < (["a"] : List String).length →
        (scale_features id rawConst ["a"] none).2.scale.getD i 1 ≠ 0) :=
  zero_variance_policy id rawConst ["a"] 0 (fun _ hq => ne_of_gt hq)
    (by norm_num)
    (by norm_num [colVar, colMean, RawTable.featureMatrix, cellValue, rawConst])

/-! ### C4: the mood query vector -/

theorem lookup_append (k : String) (l1 l2 : List (String × ℚ)) :
    (l1 ++ l2).lookup k = match l1.lookup k with
      | some v => some v
      | none => l2.lookup k := by
  induction l1 with
  | nil => simp
  | cons a t ih =>
    cases a with
    | mk ka va =>
      rw [List.cons_append, List.lookup_cons, List.lookup_cons]
      cases h : (k == ka)
      · simpa using ih
      · simp

/-- The dict `{energy, valence, danceability} | extra_overrides` looked up
at a feature name: an extras binding wins (latest insertion first), then a
slider, then the fallback. -/
theorem dictLookup_merged (en va da : ℚ) (ex : Option (List (String × ℚ)))
    (k : String) (m : ℚ) :
    (dictLookup (mergedOverrides en va da ex) k).getD m
      = match (ex.getD []).reverse.lookup k with
        | some v => v
        | none =>
          if k = "energy" then en
          else if k = "valence" then va
          else if k = "danceability" then da
          else m := by
  unfold dictLookup mergedOverrides
  rw [List.reverse_append, lookup_append]
  cases hres : (ex.getD []).reverse.lookup k with
  | some v => simp
  | none =>
    simp only
    have hrev : ([("energy", en), ("valence", va), ("danceability", da)]
        : List (String × ℚ)).reverse
        = [("danceability", da), ("valence", va), ("energy", en)] := rfl
    rw [hrev]
    by_cases he : k = "energy"
    · subst he; rfl
    · by_cases hv : k = "valence"
      · subst hv; rfl
      · by_cases hd : k = "danceability"
        · subst hd; rfl
        · have h1 : (k == "danceability") = false := by simp [hd]
          have h2 : (k == "valence") = false := by simp [hv]
          have h3 : (k == "energy") = false := by simp [he]
          simp [List.lookup_cons, h1, h2, h3, he, hv, hd]

/-- C4: in `recommend_by_mood`, the raw query point is the catalog-wide
per-feature mean vector with exactly the caller-named features overwritten
(the three sliders plus any `extra_overrides` bindings, extras winning);
every feature the caller does not name keeps its dataset mean, and the
fit-time scaler is applied transform-only to this point to produce the
query vector driving the neighbor search. -/
theorem mood_query_vector_spec (e : VibeRecommender) (en va da : ℚ)
    (ex : Option (List (String × ℚ))) :
    build_mood_vector e (mergedOverrides en va da ex)
        = e.scaler.transformVec (moodRawSpec e en va da ex)
    ∧ ∀ n, (recommend_by_mood e en va da n ex).1
        = dedupe_recommendations
            (recommendFromVector e
              (e.scaler.transformVec (moodRawSpec e en va da ex))
              (max DEFAULT_N_NEIGHBORS (n + 5)) none) n none := by
  have hvec : build_mood_vector e (mergedOverrides en va da ex)
      = e.scaler.transformVec (moodRawSpec e en va da ex) := by
    unfold build_mood_vector moodRawSpec
    exact congrArg e.scaler.transformVec
      (List.map_congr_left
        (fun p _ => dictLookup_merged en va da ex p.2 (dfColMean e p.1)))
  refine ⟨hvec, fun n => ?_⟩
  show dedupe_recommendations
      (recommendFromVector e (build_mood_vector e (mergedOverrides en va da ex))
        (max DEFAULT_N_NEIGHBORS (n + 5)) none) n none = _
  rw [hvec]

/-! ### C10: the fitted neighbor cap bounds every result -/

theorem recommendFromVector_length_le (e : VibeRecommender) (q : List ℚ)
    (n : Nat) (ex : Option Nat) :
    (recommendFromVector e q n ex).length ≤ e.models.knn_n := by
  unfold recommendFromVector
  rw [List.length_map]
  refine le_trans (List.take_sublist _ _).length_le
    (le_trans (List.length_filter_le _ _) ?_)
  unfold VibeModels.query_neighbors kneighbors
  rw [List.length_take]
  exact le_trans (min_le_left _ _) (min_le_right _ _)

/-- C10: with the default construction (`n_neighbors = 30` capped by the
row count at fit time), both query entry points return at most
`min 30 (row count)` rows — although the pool request is
`max(30, n + 5)`, the index returns at most its fitted neighbor count —
so a request with `n` beyond that cap yields fewer than `n` rows even on
a large catalog of distinct tracks. -/
theorem neighbor_count_cap (e : VibeRecommender) (tn : String)
    (ah : Option String) (en va da : ℚ) (ex : Option (List (String × ℚ)))
    (n : Nat) (hwf : e.WF) :
    ((recommend_by_track e tn n ah).1.2.length
        ≤ min DEFAULT_N_NEIGHBORS e.df.length)
    ∧ ((recommend_by_mood e en va da n ex).1.length
        ≤ min DEFAULT_N_NEIGHBORS e.df.length)
    ∧ (min DEFAULT_N_NEIGHBORS e.df.length < n →
        (recommend_by_track e tn n ah).1.2.length < n
        ∧ (recommend_by_mood e en va da n ex).1.length < n) := by
  obtain ⟨-, hknn, -⟩ := hwf
  have hmood : (recommend_by_mood e en va da n ex).1.length
      ≤ min DEFAULT_N_NEIGHBORS e.df.length := by
    show (dedupe_recommendations (recommendFromVector e
        (build_mood_vector e (mergedOverrides en va da ex))
        (max DEFAULT_N_NEIGHBORS (n + 5)) none) n none).length ≤ _
    exact le_trans (le_trans (dedupe_length_le_input _ _ _)
      (recommendFromVector_length_le _ _ _ _)) (le_of_eq hknn)
  have htrack : (recommend_by_track e tn n ah).1.2.length
      ≤ min DEFAULT_N_NEIGHBORS e.df.length := by
    rcases hg : getTrackIndicesByName e tn with _ | ⟨i0, rest⟩
    · simp [recommend_by_track, hg]
    · simp only [recommend_by_track, hg]
      exact le_trans (le_trans (dedupe_length_le_input _ _ _)
        (recommendFromVector_length_le _ _ _ _)) (le_of_eq hknn)
  exact ⟨htrack, hmood,
    fun hlt => ⟨lt_of_le_of_lt htrack hlt, lt_of_le_of_lt hmood hlt⟩⟩

/-- C10 witness: the four-row engine with `n = 10`: both results stay
within the cap `min 30 4 = 4`, hence strictly under the request. -/
theorem neighbor_count_cap_witness :
    ((recommend_by_track engW "alpha" 10 none).1.2.length
        ≤ min DEFAULT_N_NEIGHBORS engW.df.length)
    ∧ ((recommend_by_mood engW 0 0 0 10 none).1.length
        ≤ min DEFAULT_N_NEIGHBORS engW.df.length)
    ∧ ((recommend_by_track engW "alpha" 10 none).1.2.length < 10
        ∧ (recommend_by_mood engW 0 0 0 10 none).1.length < 10) :=
  ⟨(neighbor_count_cap engW "alpha" none 0 0 0 none 10 (by decide)).1,
   (neighbor_count_cap engW "alpha" none 0 0 0 none 10 (by decide)).2.1,
   (neighbor_count_cap engW "alpha" none 0 0 0 none 10 (by decide)).2.2
     (by decide)⟩

/-! ### C1: length of recommend_by_mood results -/

theorem dropDupByKey_length (l : List (Row × ℚ)) :
    ∀ seen : List (String × String),
      (dropDupByKey l seen).length
        = ((l.map recKey).toFinset \ seen.toFinset).card := by
  induction l with
  | nil => intro seen; simp [dropDupByKey]
  | cons r rs ih =>
    intro seen
    unfold dropDupByKey
    by_cases h : recKey r ∈ seen
    · rw [if_pos h, ih seen, List.map_cons, List.toFinset_cons,
        Finset.insert_sdiff_of_mem _ (List.mem_toFinset.mpr h)]
    · rw [if_neg h, List.length_cons, ih (recKey r :: seen),
        List.map_cons, List.toFinset_cons, List.toFinset_cons,
        Finset.sdiff_insert,
        Finset.insert_sdiff_of_not_mem _ (fun hc => h (List.mem_toFinset.mp hc))]
      by_cases hk : recKey r ∈ (rs.map recKey).toFinset \ seen.toFinset
      · rw [Finset.card_erase_add_one hk, Finset.insert_eq_self.mpr hk]
      · rw [Finset.erase_eq_of_not_mem hk, Finset.card_insert_of_not_mem hk]

/-- With no seed key, `_dedupe_recommendations` returns exactly
`min n (number of distinct identity keys in the pool)` rows. -/
theorem dedupe_none_length (recs : List (Row × ℚ)) (n : Nat) :
    (dedupe_recommendations recs n none).length
      = min n (recs.map recKey).toFinset.card := by
  show (List.take n (dropDupByKey (List.insertionSort distLE recs) [])).length = _
  rw [List.length_take, dropDupByKey_length, List.toFinset_nil,
    Finset.sdiff_empty]
  exact congrArg (min n) (congrArg Finset.card
    (List.toFinset_eq_of_perm _ _
      ((List.perm_insertionSort distLE recs).map recKey)))

theorem range_map_getD {α β : Type} (l : List α) (d : α) (F : α → β) :
    (List.range l.length).map (fun i => F (l.getD i d)) = l.map F := by
  apply List.ext_getElem
  · simp
  · intro i h1 h2
    simp only [List.getElem_map, List.getElem_range]
    rw [List.getD_eq_getElem?_getD,
      List.getElem?_eq_getElem (by simpa using h2), Option.getD_some]

/-- On a catalog of at most `DEFAULT_N_NEIGHBORS` rows, the mood pool
(no excluded index) visits every catalog row, so its identity-key set is
the catalog's identity-key set. -/
theorem pool_keys_small_catalog (e : VibeRecommender) (q : List ℚ) (ps : Nat)
    (hlen : e.X_scaled.length = e.df.length)
    (hknn : e.models.knn_n = min DEFAULT_N_NEIGHBORS e.df.length)
    (hsmall : e.df.length ≤ DEFAULT_N_NEIGHBORS)
    (hps : DEFAULT_N_NEIGHBORS ≤ ps) :
    ((recommendFromVector e q ps none).map recKey).toFinset
      = (e.df.map rowKey).toFinset := by
  have hk : min ps e.models.knn_n = e.X_scaled.length := by
    rw [hknn, Nat.min_eq_right hsmall, hlen]
    exact Nat.min_eq_right (le_trans hsmall hps)
  unfold recommendFromVector VibeModels.query_neighbors kneighbors
  rw [hk]
  have hplen : (List.insertionSort pairLE
      (e.X_scaled.enum.map (fun p => (sqDist q p.2, p.1)))).length
      = e.X_scaled.length := by
    rw [(List.perm_insertionSort pairLE _).length_eq, List.length_map,
      List.enum_length]
  rw [List.take_of_length_le (le_of_eq hplen),
    List.filter_eq_self.mpr (fun p _ => by simp),
    List.take_of_length_le (by
      rw [hplen, hlen]
      exact le_trans hsmall hps),
    List.map_map]
  have h2 : (e.X_scaled.enum.map (fun p => (sqDist q p.2, p.1))).map
      (recKey ∘ (fun p : ℚ × Nat => (e.df.getD p.2 defaultRow, p.1)))
      = e.df.map rowKey := by
    rw [List.map_map,
      show ((recKey ∘ fun p : ℚ × Nat => (e.df.getD p.2 defaultRow, p.1))
          ∘ fun p : Nat × List ℚ => (sqDist q p.2, p.1))
        = ((fun i => rowKey (e.df.getD i defaultRow)) ∘ Prod.fst) from rfl,
      ← List.map_map, List.enum_map_fst, hlen, range_map_getD]
  exact List.toFinset_eq_of_perm _ _
    (h2 ▸ (List.perm_insertionSort pairLE _).map _)

/-- C1 (amended): `recommend_by_mood` returns at most `n` rows, and
returns exactly `n` rows whenever the catalog has at least `n` distinct
(track_name, artists) pairs, provided the catalog has at most
`DEFAULT_N_NEIGHBORS = 30` rows (so the capped neighbor pool covers it);
the counterexample shows the proviso is necessary. -/
theorem mood_count_bound (e : VibeRecommender) (en va da : ℚ)
    (ex : Option (List (String × ℚ))) (n : Nat) (hwf : e.WF) (hn : 1 ≤ n) :
    (recommend_by_mood e en va da n ex).1.length ≤ n
    ∧ (e.df.length ≤ DEFAULT_N_NEIGHBORS →
        n ≤ (e.df.map rowKey).toFinset.card →
        (recommend_by_mood e en va da n ex).1.length = n) := by
  obtain ⟨hlen, hknn, -⟩ := hwf
  constructor
  · show (dedupe_recommendations (recommendFromVector e
        (build_mood_vector e (mergedOverrides en va da ex))
        (max DEFAULT_N_NEIGHBORS (n + 5)) none) n none).length ≤ n
    exact dedupe_length_le _ _ _
  · intro hsmall hcard
    show (dedupe_recommendations (recommendFromVector e
        (build_mood_vector e (mergedOverrides en va da ex))
        (max DEFAULT_N_NEIGHBORS (n + 5)) none) n none).length = n
    rw [dedupe_none_length,
      pool_keys_small_catalog e _ _ hlen hknn hsmall (le_max_left _ _)]
    exact Nat.min_eq_left hcard

/-- C1 witness: the four-row engine holds three distinct identity keys;
requesting one mood recommendation returns exactly one. -/
theorem mood_count_bound_witness :
    (recommend_by_mood engW 0 0 0 1 none).1.length ≤ 1
    ∧ (recommend_by_mood engW 0 0 0 1 none).1.length = 1 :=
  ⟨(mood_count_bound engW 0 0 0 none 1 (by decide) (by decide)).1,
   (mood_count_bound engW 0 0 0 none 1 (by decide) (by decide)).2
     (by decide) (by decide)⟩

/-- C1 counterexample: a constructed engine over 31 distinct
(track_name, artists) pairs, asked for `n = 31` recommendations, returns
fewer than 31 rows (the fitted neighbor index caps the pool at
`min 30 31 = 30`), refuting "length equals `n` whenever the catalog holds
at least `n` eligible distinct pairs" as stated. -/
theorem mood_count_counterexample :
    engBig.WF ∧ 1 ≤ 31
    ∧ 31 ≤ (engBig.df.map rowKey).toFinset.card
    ∧ (recommend_by_mood engBig 0 0 0 31 none).1.length < 31 := by
  have hcap : (recommend_by_mood engBig 0 0 0 31 none).1.length ≤ 30 := by
    show (dedupe_recommendations (recommendFromVector engBig
        (build_mood_vector engBig (mergedOverrides 0 0 0 none))
        (max DEFAULT_N_NEIGHBORS (31 + 5)) none) 31 none).length ≤ 30
    refine le_trans (le_trans (dedupe_length_le_input _ _ _)
      (recommendFromVector_length_le _ _ _ _)) ?_
    show min DEFAULT_N_NEIGHBORS 31 ≤ 30
    decide
  exact ⟨by decide, by decide, by decide, lt_of_le_of_lt hcap (by decide)⟩

/-- C7 witness: the not-found name of §8 against the four-row engine. -/
theorem recommend_by_track_not_found_witness :
    (recommend_by_track engW "zzz-nonexistent-zzz" 10 none).1 = (none, []) :=
  recommend_by_track_not_found engW "zzz-nonexistent-zzz" 10 none (by decide)

end VibeMatch
